import Mathlib

/-!
Shallow embedding of the attendance engine of `app/services/attendance.py`
and the local vector store of `app/services/vector_store.py`.

Modelling conventions:
* Python floats are modelled as exact rationals (`Rat`).
* `datetime` values are modelled by the fields the code inspects:
  an integer minute index (standing for the whole date-hour-minute part)
  plus the second and microsecond components that `replace(second=0,
  microsecond=0)` clears.
* Python's built-in `round(x, n)` (round-half-to-even to `n` decimal
  digits) is modelled exactly on rationals by `roundTo`.
* The SQLAlchemy queries are modelled by explicit lists: the pings of the
  session, and the student roster.
-/

set_option maxRecDepth 8192

/-- A timestamp as used by the aggregator: `minute` stands for the whole
date-hour-minute prefix; `second` and `microsecond` are the components that
`timestamp.replace(second=0, microsecond=0)` sets to zero. -/
structure DateTime where
  minute : Int
  second : Nat
  microsecond : Nat
deriving DecidableEq

/-- Model of `p.timestamp.replace(second=0, microsecond=0)`
(attendance.py line 82). -/
def truncMinute (t : DateTime) : DateTime :=
  ⟨t.minute, 0, 0⟩

/-- Row of the `students` table (models.py): relational primary key `id`,
external `student_id`, display `name`. -/
structure Student where
  id : Nat
  student_id : String
  name : String
deriving DecidableEq

/-- Row of the `pings` table (models.py): `student_id` is the relational
`Student.id` foreign key. -/
structure Ping where
  session_id : Nat
  student_id : Nat
  timestamp : DateTime
  matched : Bool
  confidence : Rat
deriving DecidableEq

/-- One entry of the report built by `calculate_attendance`
(attendance.py lines 106-114). -/
structure ReportEntry where
  student_id : String
  name : String
  status : String
  pings_matched : Nat
  total_pings : Nat
  presence_ratio : Rat
  avg_confidence : Rat
deriving DecidableEq

/-- Round a rational to the nearest integer, halves to the even integer:
the rounding mode of Python's built-in `round`. -/
def roundHalfEven (q : Rat) : Int :=
  if q - (⌊q⌋ : Rat) < 1/2 then ⌊q⌋
  else if 1/2 < q - (⌊q⌋ : Rat) then ⌊q⌋ + 1
  else if ⌊q⌋ % 2 = 0 then ⌊q⌋ else ⌊q⌋ + 1

/-- Model of Python's `round(x, n)` on exact rationals. -/
def roundTo (n : Nat) (x : Rat) : Rat :=
  ((roundHalfEven (x * (10 : Rat) ^ n) : Int) : Rat) / (10 : Rat) ^ n

/-- The set `unique_timestamps` of attendance.py lines 79-83: the distinct
minute-truncated timestamps of all pings of the session. -/
def minuteBuckets (pings : List Ping) : Finset DateTime :=
  (pings.map (fun p => truncMinute p.timestamp)).toFinset

/-- `total_pings = max(len(unique_timestamps), 1)` (attendance.py line 84). -/
def total_pings_of (pings : List Ping) : Nat :=
  max (minuteBuckets pings).card 1

/-- The matched pings of one student (relational id `sid`): the rows that
the loop of attendance.py lines 89-92 tallies for that student. -/
def matchedPingsOf (sid : Nat) (pings : List Ping) : List Ping :=
  pings.filter (fun p => p.matched && p.student_id == sid)

/-- `student_counts[sid]` of attendance.py line 91: every matched ping row
counts, duplicates inside one minute bucket are not de-duplicated. -/
def matchCount (sid : Nat) (pings : List Ping) : Nat :=
  (matchedPingsOf sid pings).length

/-- Sum of `student_confidences[sid]` of attendance.py line 92. -/
def confSum (sid : Nat) (pings : List Ping) : Rat :=
  ((matchedPingsOf sid pings).map (fun p => p.confidence)).sum

/-- The local variable `presence_ratio = match_count / total_pings` of
attendance.py line 99, before any rounding. -/
def rawRatio (sid : Nat) (pings : List Ping) : Rat :=
  (matchCount sid pings : Rat) / (total_pings_of pings : Rat)

/-- The local variable `avg_confidence` of attendance.py lines 100-104,
before any rounding: mean of the matched-ping confidences, 0 if none. -/
def rawAvg (sid : Nat) (pings : List Ping) : Rat :=
  if 0 < matchCount sid pings then confSum sid pings / (matchCount sid pings : Rat) else 0

/-- The report entry appended for one roster student by the loop of
attendance.py lines 97-114.  Note that the stored `presence_ratio` and
`avg_confidence` fields are the rounded values (lines 112-113), while the
`status` comparison of line 109 uses the unrounded ratio. -/
def entryFor (presence_threshold : Rat) (pings : List Ping) (s : Student) : ReportEntry :=
  ⟨s.student_id, s.name,
   if presence_threshold ≤ rawRatio s.id pings then "Present" else "Absent",
   matchCount s.id pings,
   total_pings_of pings,
   roundTo 2 (rawRatio s.id pings),
   roundTo 3 (rawAvg s.id pings)⟩

/-- `calculate_attendance` (attendance.py lines 63-116): empty ping set
short-circuits to an empty report, otherwise one entry per roster student. -/
def calculate_attendance (presence_threshold : Rat) (students : List Student)
    (pings : List Ping) : List ReportEntry :=
  match pings with
  | [] => []
  | _ :: _ => students.map (entryFor presence_threshold pings)

/-- Dot product of two embedding vectors: `np.dot` of vector_store.py
line 37, on exact rationals. -/
def dotProduct (a b : List Rat) : Rat :=
  (List.zipWith (fun x y => x * y) a b).sum

/-- `LocalVectorStore.store_embedding` (vector_store.py lines 20-21):
Python dict upsert, keeping insertion order on overwrite.  The
`astype(np.float32)` cast is modelled as the identity on exact rationals. -/
def store_embedding (store : List (String × List Rat)) (sid : String)
    (v : List Rat) : List (String × List Rat) :=
  if store.any (fun p => p.1 == sid) then
    store.map (fun p => if p.1 == sid then (sid, v) else p)
  else store ++ [(sid, v)]

/-- Descending-score comparison used by `results.sort(key=..., reverse=True)`
of vector_store.py line 40. -/
def scoreDesc (a b : String × Rat) : Prop :=
  b.2 ≤ a.2

instance : DecidableRel scoreDesc :=
  fun a b => inferInstanceAs (Decidable (b.2 ≤ a.2))

instance : IsTotal (String × Rat) scoreDesc :=
  ⟨fun a b => le_total b.2 a.2⟩

instance : IsTrans (String × Rat) scoreDesc :=
  ⟨fun _ _ _ hab hbc => le_trans hbc hab⟩

/-- `LocalVectorStore.query_embedding` (vector_store.py lines 23-41):
empty store returns no candidates; otherwise score every stored vector by
dot product with the query (no renormalization of either vector), sort by
score descending, and return the first `top_k`. -/
def query_embedding (store : List (String × List Rat)) (q : List Rat)
    (top_k : Nat) : List (String × Rat) :=
  match store with
  | [] => []
  | _ :: _ =>
    (List.insertionSort scoreDesc (store.map (fun p => (p.1, dotProduct q p.2)))).take top_k

/-- One detected face, reduced to the only field `process_frame` inspects. -/
structure Face where
  embedding : List Rat
deriving DecidableEq

/-- One entry of the `results` list of attendance.py lines 52-57. -/
structure MatchResult where
  student_id : String
  name : String
  confidence : Rat
  matched : Bool
deriving DecidableEq

/-- `db.query(Student).filter(Student.student_id == sid).first()`
(attendance.py line 43) over an explicit roster list. -/
def findStudent (students : List Student) (sid : String) : Option Student :=
  students.find? (fun s => s.student_id == sid)

/-- The body of the per-face loop of `process_frame` (attendance.py lines
36-57): query the vector store with `top_k=1`; if there is a candidate with
score at or above the match threshold and the resolved student exists in
the relational store, produce one ping and one result entry, else nothing. -/
def processFace (store : List (String × List Rat)) (tau : Rat)
    (students : List Student) (session_id : Nat) (now : DateTime)
    (f : Face) : Option (Ping × MatchResult) :=
  match query_embedding store f.embedding 1 with
  | [] => none
  | m :: _ =>
    if tau ≤ m.2 then
      match findStudent students m.1 with
      | some st =>
        some (⟨session_id, st.id, now, true, m.2⟩, ⟨st.student_id, st.name, m.2, true⟩)
      | none => none
    else none

/-- `process_frame` (attendance.py lines 20-60): process every face of the
frame independently; `now` models the `datetime.utcnow` default that the
database assigns to each ping of the batch. -/
def process_frame (store : List (String × List Rat)) (tau : Rat)
    (students : List Student) (session_id : Nat) (now : DateTime)
    (faces : List Face) : List Ping × List MatchResult :=
  ((faces.filterMap (processFace store tau students session_id now)).map Prod.fst,
   (faces.filterMap (processFace store tau students session_id now)).map Prod.snd)

/-- The silent-skip condition for one face: no candidate from the store, or
best score below the threshold, or the matched id absent from the roster. -/
def skips (store : List (String × List Rat)) (tau : Rat)
    (students : List Student) (f : Face) : Bool :=
  match query_embedding store f.embedding 1 with
  | [] => true
  | m :: _ => decide (m.2 < tau) || (findStudent students m.1).isNone

/-- The header fields written by `export_attendance_csv`
(attendance.py line 126). -/
def csv_header : List String :=
  ["Student ID", "Name", "Status", "Pings Matched", "Total Pings",
   "Presence Ratio", "Avg Confidence"]

/-- Double every quote character of a field, the escaping step of the
`csv.writer` default dialect. -/
def escapeQuotes (cs : List Char) : List Char :=
  cs.foldr (fun c acc => if c = '"' then '"' :: '"' :: acc else c :: acc) []

/-- Minimal quoting of one field, as Python's `csv.writer` default dialect
does: quote only when the field contains a delimiter, quote or newline. -/
def csvQuote (s : String) : String :=
  if s.data.any (fun c => c = ',' || c = '"' || c = '\n' || c = '\r') then
    ⟨'"' :: escapeQuotes s.data ++ ['"']⟩
  else s

/-- Serialization of one CSV row by `csv.writer` with the default dialect:
fields joined by a bare comma, no space after the comma. -/
def csvLine (fields : List String) : String :=
  String.intercalate "," (fields.map csvQuote)

/-- One typed CSV cell: `csv.writer` receives strings, ints and floats. -/
inductive Cell where
  | str : String → Cell
  | nat : Nat → Cell
  | rat : Rat → Cell
deriving DecidableEq

/-- The row written for one report entry by attendance.py lines 128-137:
the report values are copied verbatim, no further transformation. -/
def reportRow (r : ReportEntry) : List Cell :=
  [Cell.str r.student_id, Cell.str r.name, Cell.str r.status,
   Cell.nat r.pings_matched, Cell.nat r.total_pings,
   Cell.rat r.presence_ratio, Cell.rat r.avg_confidence]

/-- `export_attendance_csv` (attendance.py lines 119-139) as the table it
writes: the header row followed by one row per report entry. -/
def export_attendance_csv (presence_threshold : Rat) (students : List Student)
    (pings : List Ping) : List (List Cell) :=
  (csv_header.map Cell.str) :: (calculate_attendance presence_threshold students pings).map reportRow

/-! ## Helper lemmas -/

/-- When the session has at least one ping, `calculate_attendance` is the
per-roster-student map of the loop body. -/
theorem calculate_attendance_of_ne_nil (pt : Rat) (students : List Student)
    (pings : List Ping) (h : pings ≠ []) :
    calculate_attendance pt students pings = students.map (entryFor pt pings) := by
  cases pings with
  | nil => exact absurd rfl h
  | cons p l => rfl

/-- Evaluation of `roundHalfEven` when the argument lies within `[z, z + 1/2)`. -/
theorem roundHalfEven_of_near (q : Rat) (z : Int) (h1 : (z : Rat) ≤ q)
    (h2 : q - (z : Rat) < 1/2) : roundHalfEven q = z := by
  have hfl : ⌊q⌋ = z := Int.floor_eq_iff.mpr ⟨h1, by linarith⟩
  unfold roundHalfEven
  rw [hfl, if_pos (by linarith)]

/-- Evaluation of `roundTo` when `x * 10 ^ n` lies within `[z, z + 1/2)`. -/
theorem roundTo_eq_down (n : Nat) (x : Rat) (z : Int) (h1 : (z : Rat) ≤ x * 10 ^ n)
    (h2 : x * 10 ^ n - (z : Rat) < 1/2) : roundTo n x = (z : Rat) / 10 ^ n := by
  unfold roundTo
  rw [roundHalfEven_of_near _ z h1 h2]

/-- Unfolding of `processFace` when the store returns at least one candidate. -/
theorem processFace_cons (store : List (String × List Rat)) (tau : Rat)
    (students : List Student) (session_id : Nat) (now : DateTime) (f : Face)
    (m : String × Rat) (rest : List (String × Rat))
    (hq : query_embedding store f.embedding 1 = m :: rest) :
    processFace store tau students session_id now f =
      if tau ≤ m.2 then
        match findStudent students m.1 with
        | some st =>
          some (⟨session_id, st.id, now, true, m.2⟩, ⟨st.student_id, st.name, m.2, true⟩)
        | none => none
      else none := by
  unfold processFace
  rw [hq]

/-- Unfolding of `processFace` when the store returns no candidate. -/
theorem processFace_nil (store : List (String × List Rat)) (tau : Rat)
    (students : List Student) (session_id : Nat) (now : DateTime) (f : Face)
    (hq : query_embedding store f.embedding 1 = []) :
    processFace store tau students session_id now f = none := by
  unfold processFace
  rw [hq]

/-! ## Claims -/

/-- Claim C1: for every session whose pings occupy exactly 2 distinct minute
buckets and every roster student with exactly 3 matched ping rows (a student
matched twice inside one bucket and once in the other is an instance), the
report entry has `total_pings = 2`, `pings_matched = 3` and
`presence_ratio = 3/2`: duplicates inside one bucket each add to the
student's numerator while the bucket adds once to the shared denominator,
and the ratio above 1 is not clamped. -/
theorem c1_duplicate_bucket_policy (pt : Rat) (students : List Student)
    (pings : List Ping) (s : Student) (hs : s ∈ students)
    (hbuckets : (minuteBuckets pings).card = 2)
    (hcount : matchCount s.id pings = 3) :
    ∃ e ∈ calculate_attendance pt students pings,
      e.student_id = s.student_id ∧ e.total_pings = 2 ∧ e.pings_matched = 3 ∧
      e.presence_ratio = 3/2 := by
  have hne : pings ≠ [] := by
    intro h
    rw [h] at hcount
    simp [matchCount, matchedPingsOf] at hcount
  have htotal : total_pings_of pings = 2 := by
    rw [total_pings_of, hbuckets]
    decide
  refine ⟨entryFor pt pings s, ?_, rfl, htotal, hcount, ?_⟩
  · rw [calculate_attendance_of_ne_nil pt students pings hne]
    exact List.mem_map_of_mem _ hs
  · show roundTo 2 (rawRatio s.id pings) = 3/2
    have hr : rawRatio s.id pings = 3/2 := by
      rw [rawRatio, hcount, htotal]
      norm_num
    rw [hr, roundTo_eq_down 2 (3/2) 150 (by norm_num) (by norm_num)]
    norm_num

/-- Witness for C1: a concrete session with two minute buckets and a student
matched twice in the first bucket and once in the second. -/
theorem c1_duplicate_bucket_policy_witness :
    ((minuteBuckets [⟨9, 1, ⟨10, 5, 0⟩, true, 9/10⟩, ⟨9, 1, ⟨10, 40, 0⟩, true, 8/10⟩,
        ⟨9, 1, ⟨11, 5, 0⟩, true, 7/10⟩]).card = 2 ∧
      matchCount 1 [⟨9, 1, ⟨10, 5, 0⟩, true, 9/10⟩, ⟨9, 1, ⟨10, 40, 0⟩, true, 8/10⟩,
        ⟨9, 1, ⟨11, 5, 0⟩, true, 7/10⟩] = 3) ∧
    ∃ e ∈ calculate_attendance (6/10) [⟨1, "S1", "Alice"⟩]
        [⟨9, 1, ⟨10, 5, 0⟩, true, 9/10⟩, ⟨9, 1, ⟨10, 40, 0⟩, true, 8/10⟩,
         ⟨9, 1, ⟨11, 5, 0⟩, true, 7/10⟩],
      e.student_id = "S1" ∧ e.total_pings = 2 ∧ e.pings_matched = 3 ∧
      e.presence_ratio = 3/2 :=
  ⟨⟨by decide, by decide⟩,
   c1_duplicate_bucket_policy (6/10) [⟨1, "S1", "Alice"⟩]
     [⟨9, 1, ⟨10, 5, 0⟩, true, 9/10⟩, ⟨9, 1, ⟨10, 40, 0⟩, true, 8/10⟩,
      ⟨9, 1, ⟨11, 5, 0⟩, true, 7/10⟩] ⟨1, "S1", "Alice"⟩
     (by decide) (by decide) (by decide)⟩

/-- Claim C8: for every store, query vector and `top_k`, the local vector
store query returns nothing on an empty store, returns at most `top_k`
pairs, sorted by score descending, and every returned score is the raw dot
product of the query with the corresponding stored vector (no
renormalization of either vector). -/
theorem c8_query_contract (store : List (String × List Rat)) (q : List Rat)
    (k : Nat) :
    query_embedding [] q k = [] ∧
    (query_embedding store q k).length ≤ k ∧
    List.Sorted scoreDesc (query_embedding store q k) ∧
    ∀ p ∈ query_embedding store q k, ∃ v, (p.1, v) ∈ store ∧ p.2 = dotProduct q v := by
  refine ⟨rfl, ?_, ?_, ?_⟩
  · cases store with
    | nil => simp [query_embedding]
    | cons a l =>
      show (List.take k (List.insertionSort scoreDesc
        ((a :: l).map (fun p => (p.1, dotProduct q p.2))))).length ≤ k
      rw [List.length_take]
      exact min_le_left _ _
  · cases store with
    | nil => simp [query_embedding]
    | cons a l =>
      exact List.Pairwise.sublist (List.take_sublist _ _)
        (List.sorted_insertionSort scoreDesc _)
  · intro p hp
    cases store with
    | nil => simp [query_embedding] at hp
    | cons a l =>
      have hp1 : p ∈ List.insertionSort scoreDesc
          ((a :: l).map (fun p => (p.1, dotProduct q p.2))) :=
        List.mem_of_mem_take hp
      have hp2 : p ∈ (a :: l).map (fun p => (p.1, dotProduct q p.2)) :=
        (List.mem_insertionSort scoreDesc).mp hp1
      obtain ⟨pr, hpr, heq⟩ := List.mem_map.mp hp2
      refine ⟨pr.2, ?_, ?_⟩
      · rw [← heq]
        simpa using hpr
      · rw [← heq]

/-- Witness for C8 at a concrete two-vector store. -/
theorem c8_query_contract_witness :
    (query_embedding [("a", [2]), ("b", [3])] [1] 1).length ≤ 1 ∧
    List.Sorted scoreDesc (query_embedding [("a", [2]), ("b", [3])] [1] 1) :=
  ⟨(c8_query_contract [("a", [2]), ("b", [3])] [1] 1).2.1,
   (c8_query_contract [("a", [2]), ("b", [3])] [1] 1).2.2.1⟩

/-- Claim C9: storing a unit-norm embedding as the sole vector of the store
and querying with the vector itself returns that id with score within
`1/10000` of 1 (the self-similarity round trip; on exact rationals the
score is exactly 1). -/
theorem c9_self_similarity (sid : String) (v : List Rat)
    (hunit : dotProduct v v = 1) :
    ∃ sc, query_embedding (store_embedding [] sid v) v 1 = [(sid, sc)] ∧
      |sc - 1| ≤ 1/10000 := by
  refine ⟨1, ?_, by norm_num⟩
  have h1 : store_embedding [] sid v = [(sid, v)] := rfl
  rw [h1]
  show (List.insertionSort scoreDesc [(sid, dotProduct v v)]).take 1 = [(sid, 1)]
  rw [hunit]
  exact rfl

/-- Witness for C9: a concrete unit vector. -/
theorem c9_self_similarity_witness :
    dotProduct [3/5, 4/5] [3/5, 4/5] = 1 ∧
    ∃ sc, query_embedding (store_embedding [] "alice" [3/5, 4/5]) [3/5, 4/5] 1 =
        [("alice", sc)] ∧ |sc - 1| ≤ 1/10000 :=
  ⟨by norm_num [dotProduct],
   c9_self_similarity "alice" [3/5, 4/5] (by norm_num [dotProduct])⟩

/-- Claim C2 (counterexample): a face whose best similarity score equals the
threshold — so score ≥ τ holds — yet whose matched id resolves to no student
in the relational store produces no ping, refuting the unconditional
"score ≥ τ always persists a ping". -/
theorem c2_counterexample :
    query_embedding [("ghost", [1])] (Face.mk [3/5]).embedding 1 = [("ghost", 3/5)] ∧
    ((3 : Rat)/5 ≥ 3/5) ∧
    process_frame [("ghost", [1])] (3/5) [] 7 ⟨0, 0, 0⟩ [⟨[3/5]⟩] = ([], []) := by
  have hq : query_embedding [("ghost", [1])] (Face.mk [3/5]).embedding 1 = [("ghost", 3/5)] := by
    norm_num [query_embedding, dotProduct]
  refine ⟨hq, le_refl _, ?_⟩
  have hnone : processFace [("ghost", [1])] (3/5) [] 7 ⟨0, 0, 0⟩ ⟨[3/5]⟩ = none := by
    rw [processFace_cons _ _ _ _ _ _ _ _ hq, if_pos (le_refl _)]
    exact rfl
  simp [process_frame, hnone]

/-- Claim C2 (amended): for every detected face whose best candidate has
score below τ, frame processing persists no ping and no result; when the
best score is at or above τ — including exactly τ, since the comparison is
`≥` — and the matched student id exists in the relational store, exactly one
ping and one result entry with that score are persisted. -/
theorem c2_threshold_semantics (store : List (String × List Rat)) (tau : Rat)
    (students : List Student) (session_id : Nat) (now : DateTime) (f : Face)
    (m : String × Rat) (rest : List (String × Rat))
    (hq : query_embedding store f.embedding 1 = m :: rest) :
    (m.2 < tau → process_frame store tau students session_id now [f] = ([], [])) ∧
    (tau ≤ m.2 → ∀ st, findStudent students m.1 = some st →
      process_frame store tau students session_id now [f] =
        ([⟨session_id, st.id, now, true, m.2⟩], [⟨st.student_id, st.name, m.2, true⟩])) := by
  constructor
  · intro hlt
    have hnone : processFace store tau students session_id now f = none := by
      rw [processFace_cons _ _ _ _ _ _ _ _ hq, if_neg (not_le.mpr hlt)]
    simp [process_frame, hnone]
  · intro hge st hst
    have hsome : processFace store tau students session_id now f =
        some (⟨session_id, st.id, now, true, m.2⟩, ⟨st.student_id, st.name, m.2, true⟩) := by
      rw [processFace_cons _ _ _ _ _ _ _ _ hq, if_pos hge, hst]
    simp [process_frame, hsome]

/-- Witness for C2 (amended), at the boundary: a face scoring exactly τ
against a registered student produces exactly one ping with that score. -/
theorem c2_threshold_semantics_witness :
    process_frame [("alice", [1])] (3/5) [⟨1, "alice", "Alice"⟩] 7 ⟨0, 0, 0⟩ [⟨[3/5]⟩] =
      ([⟨7, 1, ⟨0, 0, 0⟩, true, 3/5⟩], [⟨"alice", "Alice", 3/5, true⟩]) :=
  (c2_threshold_semantics [("alice", [1])] (3/5) [⟨1, "alice", "Alice"⟩] 7 ⟨0, 0, 0⟩
      ⟨[3/5]⟩ ("alice", 3/5) []
      (by norm_num [query_embedding, dotProduct])).2
    (le_refl _) ⟨1, "alice", "Alice"⟩ (by decide)

/-- Claim C5: a face with no accepted match — no candidate, or best score
below the threshold — or whose accepted match resolves to a student id
absent from the relational store contributes no ping and no result entry,
and the rest of the frame is processed exactly as if that face were not
there: a silent skip, not a failure. -/
theorem c5_silent_skip (store : List (String × List Rat)) (tau : Rat)
    (students : List Student) (session_id : Nat) (now : DateTime) (f : Face)
    (faces1 faces2 : List Face)
    (hskip : skips store tau students f = true) :
    process_frame store tau students session_id now (faces1 ++ f :: faces2) =
      process_frame store tau students session_id now (faces1 ++ faces2) := by
  have hnone : processFace store tau students session_id now f = none := by
    unfold skips at hskip
    cases hq : query_embedding store f.embedding 1 with
    | nil => exact processFace_nil _ _ _ _ _ _ hq
    | cons m rest =>
      rw [hq] at hskip
      simp only [Bool.or_eq_true, decide_eq_true_eq, Option.isNone_iff_eq_none] at hskip
      rw [processFace_cons _ _ _ _ _ _ _ _ hq]
      rcases hskip with h | h
      · rw [if_neg (not_le.mpr h)]
      · rw [h]
        exact ite_self none
  simp [process_frame, List.filterMap_append, List.filterMap_cons, hnone]

/-- Witness for C5: a frame with one matching face and one below-threshold
face yields the same output as the frame with the matching face alone. -/
theorem c5_silent_skip_witness :
    skips [("alice", [1])] (3/5) [⟨1, "alice", "Alice"⟩] ⟨[1/2]⟩ = true ∧
    process_frame [("alice", [1])] (3/5) [⟨1, "alice", "Alice"⟩] 7 ⟨0, 0, 0⟩
        ([⟨[1]⟩] ++ ⟨[1/2]⟩ :: []) =
      process_frame [("alice", [1])] (3/5) [⟨1, "alice", "Alice"⟩] 7 ⟨0, 0, 0⟩
        ([⟨[1]⟩] ++ []) :=
  ⟨by norm_num [skips, query_embedding, dotProduct, findStudent],
   c5_silent_skip [("alice", [1])] (3/5) [⟨1, "alice", "Alice"⟩] 7 ⟨0, 0, 0⟩
     ⟨[1/2]⟩ [⟨[1]⟩] []
     (by norm_num [skips, query_embedding, dotProduct, findStudent])⟩

/-- Claim C3 (counterexample): a student matched at confidences 7/10, 7/10,
4/5 has arithmetic mean 11/15, but the report's `avg_confidence` field is
733/1000 — the mean rounded to 3 decimals, not the mean itself. -/
theorem c3_counterexample :
    rawAvg 1 [⟨1, 1, ⟨0, 0, 0⟩, true, 7/10⟩, ⟨1, 1, ⟨1, 0, 0⟩, true, 7/10⟩,
      ⟨1, 1, ⟨2, 0, 0⟩, true, 4/5⟩] = 11/15 ∧
    (calculate_attendance (6/10) [⟨1, "A", "Ann"⟩]
        [⟨1, 1, ⟨0, 0, 0⟩, true, 7/10⟩, ⟨1, 1, ⟨1, 0, 0⟩, true, 7/10⟩,
         ⟨1, 1, ⟨2, 0, 0⟩, true, 4/5⟩]).map (fun e => e.avg_confidence) =
      [733/1000] ∧
    (733/1000 : Rat) ≠ 11/15 := by
  have hc : matchCount 1 [⟨1, 1, ⟨0, 0, 0⟩, true, 7/10⟩, ⟨1, 1, ⟨1, 0, 0⟩, true, 7/10⟩,
      ⟨1, 1, ⟨2, 0, 0⟩, true, 4/5⟩] = 3 := by decide
  have hsum : confSum 1 [⟨1, 1, ⟨0, 0, 0⟩, true, 7/10⟩, ⟨1, 1, ⟨1, 0, 0⟩, true, 7/10⟩,
      ⟨1, 1, ⟨2, 0, 0⟩, true, 4/5⟩] = 11/5 := by
    norm_num [confSum, matchedPingsOf]
  have h1 : rawAvg 1 [⟨1, 1, ⟨0, 0, 0⟩, true, 7/10⟩, ⟨1, 1, ⟨1, 0, 0⟩, true, 7/10⟩,
      ⟨1, 1, ⟨2, 0, 0⟩, true, 4/5⟩] = 11/15 := by
    rw [rawAvg, hc, hsum]
    norm_num
  refine ⟨h1, ?_, by norm_num⟩
  rw [calculate_attendance_of_ne_nil _ _ _ (List.cons_ne_nil _ _)]
  simp only [List.map_cons, List.map_nil]
  show [roundTo 3 (rawAvg 1 [⟨1, 1, ⟨0, 0, 0⟩, true, 7/10⟩, ⟨1, 1, ⟨1, 0, 0⟩, true, 7/10⟩,
    ⟨1, 1, ⟨2, 0, 0⟩, true, 4/5⟩])] = [733/1000]
  rw [h1, roundTo_eq_down 3 (11/15) 733 (by norm_num) (by norm_num)]
  norm_num

/-- Claim C3 (amended): for every roster student of a session with at least
one ping, the report entry has status "Present" exactly when the
full-precision ratio `match_count / total_pings` is at least the presence
threshold and "Absent" otherwise; `pings_matched` is the matched-ping count
and `avg_confidence` is the arithmetic mean of the student's matched-ping
confidences rounded to 3 decimals, or 0 when the student has no pings. -/
theorem c3_classification (pt : Rat) (students : List Student) (pings : List Ping)
    (s : Student) (hs : s ∈ students) (hne : pings ≠ []) :
    ∃ e ∈ calculate_attendance pt students pings,
      e.student_id = s.student_id ∧
      e.pings_matched = matchCount s.id pings ∧
      (e.status = "Present" ↔ rawRatio s.id pings ≥ pt) ∧
      (e.status = "Absent" ↔ ¬ rawRatio s.id pings ≥ pt) ∧
      e.avg_confidence = roundTo 3 (rawAvg s.id pings) ∧
      (matchCount s.id pings = 0 → e.avg_confidence = 0) := by
  refine ⟨entryFor pt pings s, ?_, rfl, rfl, ?_, ?_, rfl, ?_⟩
  · rw [calculate_attendance_of_ne_nil pt students pings hne]
    exact List.mem_map_of_mem _ hs
  · show (if pt ≤ rawRatio s.id pings then "Present" else "Absent") = "Present" ↔ _
    by_cases h : pt ≤ rawRatio s.id pings
    · rw [if_pos h]
      exact iff_of_true rfl h
    · rw [if_neg h]
      exact iff_of_false (by decide) h
  · show (if pt ≤ rawRatio s.id pings then "Present" else "Absent") = "Absent" ↔ _
    by_cases h : pt ≤ rawRatio s.id pings
    · rw [if_pos h]
      exact iff_of_false (by decide) (not_not_intro h)
    · rw [if_neg h]
      exact iff_of_true rfl h
  · intro h0
    show roundTo 3 (rawAvg s.id pings) = 0
    rw [rawAvg, h0, if_neg (by norm_num),
      roundTo_eq_down 3 0 0 (by norm_num) (by norm_num)]
    norm_num

/-- Witness for C3 (amended): the spec's concrete scenario — 5 minute
buckets, student A matched in 3 of them at confidences 7/10, 8/10, 9/10. -/
theorem c3_classification_witness :
    ∃ e ∈ calculate_attendance (6/10) [⟨1, "A", "Ann"⟩, ⟨2, "B", "Ben"⟩]
        [⟨1, 1, ⟨0, 0, 0⟩, true, 7/10⟩, ⟨1, 1, ⟨1, 0, 0⟩, true, 8/10⟩,
         ⟨1, 1, ⟨2, 0, 0⟩, true, 9/10⟩, ⟨1, 3, ⟨3, 0, 0⟩, true, 1/2⟩,
         ⟨1, 3, ⟨4, 0, 0⟩, true, 1/2⟩],
      e.student_id = "A" ∧
      e.pings_matched = matchCount 1 [⟨1, 1, ⟨0, 0, 0⟩, true, 7/10⟩,
        ⟨1, 1, ⟨1, 0, 0⟩, true, 8/10⟩, ⟨1, 1, ⟨2, 0, 0⟩, true, 9/10⟩,
        ⟨1, 3, ⟨3, 0, 0⟩, true, 1/2⟩, ⟨1, 3, ⟨4, 0, 0⟩, true, 1/2⟩] ∧
      (e.status = "Present" ↔ rawRatio 1 [⟨1, 1, ⟨0, 0, 0⟩, true, 7/10⟩,
        ⟨1, 1, ⟨1, 0, 0⟩, true, 8/10⟩, ⟨1, 1, ⟨2, 0, 0⟩, true, 9/10⟩,
        ⟨1, 3, ⟨3, 0, 0⟩, true, 1/2⟩, ⟨1, 3, ⟨4, 0, 0⟩, true, 1/2⟩] ≥ 6/10) ∧
      (e.status = "Absent" ↔ ¬ rawRatio 1 [⟨1, 1, ⟨0, 0, 0⟩, true, 7/10⟩,
        ⟨1, 1, ⟨1, 0, 0⟩, true, 8/10⟩, ⟨1, 1, ⟨2, 0, 0⟩, true, 9/10⟩,
        ⟨1, 3, ⟨3, 0, 0⟩, true, 1/2⟩, ⟨1, 3, ⟨4, 0, 0⟩, true, 1/2⟩] ≥ 6/10) ∧
      e.avg_confidence = roundTo 3 (rawAvg 1 [⟨1, 1, ⟨0, 0, 0⟩, true, 7/10⟩,
        ⟨1, 1, ⟨1, 0, 0⟩, true, 8/10⟩, ⟨1, 1, ⟨2, 0, 0⟩, true, 9/10⟩,
        ⟨1, 3, ⟨3, 0, 0⟩, true, 1/2⟩, ⟨1, 3, ⟨4, 0, 0⟩, true, 1/2⟩]) ∧
      (matchCount 1 [⟨1, 1, ⟨0, 0, 0⟩, true, 7/10⟩,
        ⟨1, 1, ⟨1, 0, 0⟩, true, 8/10⟩, ⟨1, 1, ⟨2, 0, 0⟩, true, 9/10⟩,
        ⟨1, 3, ⟨3, 0, 0⟩, true, 1/2⟩, ⟨1, 3, ⟨4, 0, 0⟩, true, 1/2⟩] = 0 →
        e.avg_confidence = 0) :=
  c3_classification (6/10) [⟨1, "A", "Ann"⟩, ⟨2, "B", "Ben"⟩]
    [⟨1, 1, ⟨0, 0, 0⟩, true, 7/10⟩, ⟨1, 1, ⟨1, 0, 0⟩, true, 8/10⟩,
     ⟨1, 1, ⟨2, 0, 0⟩, true, 9/10⟩, ⟨1, 3, ⟨3, 0, 0⟩, true, 1/2⟩,
     ⟨1, 3, ⟨4, 0, 0⟩, true, 1/2⟩] ⟨1, "A", "Ann"⟩
    (by decide) (List.cons_ne_nil _ _)

/-- Claim C4: an empty ping set short-circuits to an empty report; for a
nonempty ping set the report has exactly one entry per roster student, in
roster order and with the roster's student ids, and a roster student with
zero pings gets `pings_matched = 0`, `avg_confidence = 0`, and status
"Absent" for every positive presence threshold. -/
theorem c4_roster_completeness (pt : Rat) (students : List Student)
    (pings : List Ping) :
    calculate_attendance pt students [] = [] ∧
    (pings ≠ [] →
      (calculate_attendance pt students pings).map (fun e => e.student_id) =
        students.map (fun s => s.student_id) ∧
      ∀ s ∈ students, matchCount s.id pings = 0 →
        ∃ e ∈ calculate_attendance pt students pings,
          e.student_id = s.student_id ∧ e.pings_matched = 0 ∧
          e.avg_confidence = 0 ∧ (0 < pt → e.status = "Absent")) := by
  refine ⟨rfl, fun hne => ⟨?_, ?_⟩⟩
  · rw [calculate_attendance_of_ne_nil pt students pings hne, List.map_map]
    rfl
  · intro s hs h0
    refine ⟨entryFor pt pings s, ?_, rfl, h0, ?_, ?_⟩
    · rw [calculate_attendance_of_ne_nil pt students pings hne]
      exact List.mem_map_of_mem _ hs
    · show roundTo 3 (rawAvg s.id pings) = 0
      rw [rawAvg, h0, if_neg (by norm_num),
        roundTo_eq_down 3 0 0 (by norm_num) (by norm_num)]
      norm_num
    · intro hpt
      show (if pt ≤ rawRatio s.id pings then "Present" else "Absent") = "Absent"
      have hr : rawRatio s.id pings = 0 := by
        rw [rawRatio, h0]
        norm_num
      rw [hr, if_neg (not_le.mpr hpt)]

/-- Witness for C4: a two-student roster where only the first student has a
ping; the second student's entry is present, zeroed and "Absent". -/
theorem c4_roster_completeness_witness :
    ([⟨1, 1, ⟨0, 0, 0⟩, true, 9/10⟩] : List Ping) ≠ [] ∧
    (calculate_attendance (6/10) [⟨1, "A", "Ann"⟩, ⟨2, "B", "Ben"⟩]
        [⟨1, 1, ⟨0, 0, 0⟩, true, 9/10⟩]).map (fun e => e.student_id) = ["A", "B"] ∧
    ∃ e ∈ calculate_attendance (6/10) [⟨1, "A", "Ann"⟩, ⟨2, "B", "Ben"⟩]
        [⟨1, 1, ⟨0, 0, 0⟩, true, 9/10⟩],
      e.student_id = "B" ∧ e.pings_matched = 0 ∧ e.avg_confidence = 0 ∧
      (0 < (6/10 : Rat) → e.status = "Absent") := by
  have h := c4_roster_completeness (6/10) [⟨1, "A", "Ann"⟩, ⟨2, "B", "Ben"⟩]
    [⟨1, 1, ⟨0, 0, 0⟩, true, 9/10⟩]
  have hne : ([⟨1, 1, ⟨0, 0, 0⟩, true, 9/10⟩] : List Ping) ≠ [] :=
    List.cons_ne_nil _ _
  exact ⟨hne, (h.2 hne).1, (h.2 hne).2 ⟨2, "B", "Ben"⟩ (by decide) (by decide)⟩

/-- Claim C6 (counterexample): a student matched in 1 of 3 minute buckets
has full-precision ratio 1/3, but the report's `presence_ratio` field is
33/100 — already rounded at aggregation, not only for display. -/
theorem c6_counterexample :
    rawRatio 1 [⟨1, 1, ⟨0, 0, 0⟩, true, 1/2⟩, ⟨1, 2, ⟨1, 0, 0⟩, true, 1/2⟩,
      ⟨1, 2, ⟨2, 0, 0⟩, true, 1/2⟩] = 1/3 ∧
    (calculate_attendance (6/10) [⟨1, "A", "Ann"⟩]
        [⟨1, 1, ⟨0, 0, 0⟩, true, 1/2⟩, ⟨1, 2, ⟨1, 0, 0⟩, true, 1/2⟩,
         ⟨1, 2, ⟨2, 0, 0⟩, true, 1/2⟩]).map (fun e => e.presence_ratio) =
      [33/100] ∧
    (33/100 : Rat) ≠ 1/3 := by
  have hc : matchCount 1 [⟨1, 1, ⟨0, 0, 0⟩, true, 1/2⟩, ⟨1, 2, ⟨1, 0, 0⟩, true, 1/2⟩,
      ⟨1, 2, ⟨2, 0, 0⟩, true, 1/2⟩] = 1 := by decide
  have ht : total_pings_of [⟨1, 1, ⟨0, 0, 0⟩, true, 1/2⟩, ⟨1, 2, ⟨1, 0, 0⟩, true, 1/2⟩,
      ⟨1, 2, ⟨2, 0, 0⟩, true, 1/2⟩] = 3 := by decide
  have h1 : rawRatio 1 [⟨1, 1, ⟨0, 0, 0⟩, true, 1/2⟩, ⟨1, 2, ⟨1, 0, 0⟩, true, 1/2⟩,
      ⟨1, 2, ⟨2, 0, 0⟩, true, 1/2⟩] = 1/3 := by
    rw [rawRatio, hc, ht]
    norm_num
  refine ⟨h1, ?_, by norm_num⟩
  rw [calculate_attendance_of_ne_nil _ _ _ (List.cons_ne_nil _ _)]
  simp only [List.map_cons, List.map_nil]
  show [roundTo 2 (rawRatio 1 [⟨1, 1, ⟨0, 0, 0⟩, true, 1/2⟩, ⟨1, 2, ⟨1, 0, 0⟩, true, 1/2⟩,
    ⟨1, 2, ⟨2, 0, 0⟩, true, 1/2⟩])] = [33/100]
  rw [h1, roundTo_eq_down 2 (1/3) 33 (by norm_num) (by norm_num)]
  norm_num

/-- Claim C6 (amended): the rounding happens when the report is built — the
entry's `presence_ratio` field is the ratio rounded to 2 decimals and its
`avg_confidence` field the mean rounded to 3 decimals; the CSV export copies
these already-rounded report values verbatim; only the Present/Absent
classification uses the full-precision ratio. -/
theorem c6_rounding_at_aggregation (pt : Rat) (students : List Student)
    (pings : List Ping) (s : Student) (hs : s ∈ students) (hne : pings ≠ []) :
    ∃ e ∈ calculate_attendance pt students pings,
      e.student_id = s.student_id ∧
      e.presence_ratio = roundTo 2 (rawRatio s.id pings) ∧
      e.avg_confidence = roundTo 3 (rawAvg s.id pings) ∧
      (e.status = "Present" ↔ pt ≤ rawRatio s.id pings) ∧
      export_attendance_csv pt students pings =
        (csv_header.map Cell.str) ::
          (calculate_attendance pt students pings).map reportRow := by
  refine ⟨entryFor pt pings s, ?_, rfl, rfl, rfl, ?_, rfl⟩
  · rw [calculate_attendance_of_ne_nil pt students pings hne]
    exact List.mem_map_of_mem _ hs
  · show (if pt ≤ rawRatio s.id pings then "Present" else "Absent") = "Present" ↔ _
    by_cases h : pt ≤ rawRatio s.id pings
    · rw [if_pos h]
      exact iff_of_true rfl h
    · rw [if_neg h]
      exact iff_of_false (by decide) h

/-- Witness for C6 (amended) at the counterexample session. -/
theorem c6_rounding_at_aggregation_witness :
    ∃ e ∈ calculate_attendance (6/10) [⟨1, "A", "Ann"⟩]
        [⟨1, 1, ⟨0, 0, 0⟩, true, 1/2⟩, ⟨1, 2, ⟨1, 0, 0⟩, true, 1/2⟩,
         ⟨1, 2, ⟨2, 0, 0⟩, true, 1/2⟩],
      e.student_id = "A" ∧
      e.presence_ratio = roundTo 2 (rawRatio 1 [⟨1, 1, ⟨0, 0, 0⟩, true, 1/2⟩,
        ⟨1, 2, ⟨1, 0, 0⟩, true, 1/2⟩, ⟨1, 2, ⟨2, 0, 0⟩, true, 1/2⟩]) ∧
      e.avg_confidence = roundTo 3 (rawAvg 1 [⟨1, 1, ⟨0, 0, 0⟩, true, 1/2⟩,
        ⟨1, 2, ⟨1, 0, 0⟩, true, 1/2⟩, ⟨1, 2, ⟨2, 0, 0⟩, true, 1/2⟩]) ∧
      (e.status = "Present" ↔ (6/10 : Rat) ≤ rawRatio 1 [⟨1, 1, ⟨0, 0, 0⟩, true, 1/2⟩,
        ⟨1, 2, ⟨1, 0, 0⟩, true, 1/2⟩, ⟨1, 2, ⟨2, 0, 0⟩, true, 1/2⟩]) ∧
      export_attendance_csv (6/10) [⟨1, "A", "Ann"⟩]
          [⟨1, 1, ⟨0, 0, 0⟩, true, 1/2⟩, ⟨1, 2, ⟨1, 0, 0⟩, true, 1/2⟩,
           ⟨1, 2, ⟨2, 0, 0⟩, true, 1/2⟩] =
        (csv_header.map Cell.str) ::
          (calculate_attendance (6/10) [⟨1, "A", "Ann"⟩]
            [⟨1, 1, ⟨0, 0, 0⟩, true, 1/2⟩, ⟨1, 2, ⟨1, 0, 0⟩, true, 1/2⟩,
             ⟨1, 2, ⟨2, 0, 0⟩, true, 1/2⟩]).map reportRow :=
  c6_rounding_at_aggregation (6/10) [⟨1, "A", "Ann"⟩]
    [⟨1, 1, ⟨0, 0, 0⟩, true, 1/2⟩, ⟨1, 2, ⟨1, 0, 0⟩, true, 1/2⟩,
     ⟨1, 2, ⟨2, 0, 0⟩, true, 1/2⟩] ⟨1, "A", "Ann"⟩
    (by decide) (List.cons_ne_nil _ _)

/-- Claim C7 (counterexample): the serialized header row of the CSV export
is not the spaced string `Student ID, Name, Status, Pings Matched, Total
Pings, Presence Ratio, Avg Confidence` — the writer joins fields with a
bare comma, without a following space. -/
theorem c7_counterexample :
    csvLine csv_header ≠
      "Student ID, Name, Status, Pings Matched, Total Pings, Presence Ratio, Avg Confidence" := by
  decide

/-- Claim C7 (amended): the CSV export's header row consists of exactly the
seven fields Student ID, Name, Status, Pings Matched, Total Pings, Presence
Ratio, Avg Confidence, serialized by the writer's default dialect as
`Student ID,Name,Status,Pings Matched,Total Pings,Presence Ratio,Avg
Confidence` (no space after the commas), followed by one row per roster
student carrying the aggregator's computed values. -/
theorem c7_csv_format (pt : Rat) (students : List Student) (pings : List Ping) :
    csvLine csv_header =
      "Student ID,Name,Status,Pings Matched,Total Pings,Presence Ratio,Avg Confidence" ∧
    export_attendance_csv pt students pings =
      (csv_header.map Cell.str) ::
        (calculate_attendance pt students pings).map reportRow ∧
    (pings ≠ [] →
      (export_attendance_csv pt students pings).length = students.length + 1) := by
  refine ⟨by decide, rfl, fun hne => ?_⟩
  rw [export_attendance_csv, calculate_attendance_of_ne_nil pt students pings hne]
  simp

/-- Witness for C7 (amended) at a concrete one-student session. -/
theorem c7_csv_format_witness :
    (export_attendance_csv (6/10) [⟨1, "A", "Ann"⟩]
        [⟨1, 1, ⟨0, 0, 0⟩, true, 1/2⟩]).length = 2 ∧
    csvLine csv_header =
      "Student ID,Name,Status,Pings Matched,Total Pings,Presence Ratio,Avg Confidence" :=
  ⟨(c7_csv_format (6/10) [⟨1, "A", "Ann"⟩] [⟨1, 1, ⟨0, 0, 0⟩, true, 1/2⟩]).2.2
      (List.cons_ne_nil _ _),
   (c7_csv_format (6/10) [⟨1, "A", "Ann"⟩] [⟨1, 1, ⟨0, 0, 0⟩, true, 1/2⟩]).1⟩

/-- Claim C10: an unmatched ping's minute bucket still counts toward the
shared `total_pings` denominator — bucket reconstruction does not filter on
the `matched` flag — while the ping itself is excluded from every student's
`pings_matched` count and confidence sum, hence from `avg_confidence`. -/
theorem c10_unmatched_denominator (pt : Rat) (students : List Student)
    (s : Student) (l1 l2 : List Ping) (q : Ping)
    (hq : q.matched = false) (hs : s ∈ students) :
    truncMinute q.timestamp ∈ minuteBuckets (l1 ++ q :: l2) ∧
    total_pings_of (l1 ++ q :: l2) = (minuteBuckets (l1 ++ q :: l2)).card ∧
    matchCount s.id (l1 ++ q :: l2) = matchCount s.id (l1 ++ l2) ∧
    confSum s.id (l1 ++ q :: l2) = confSum s.id (l1 ++ l2) ∧
    ∃ e ∈ calculate_attendance pt students (l1 ++ q :: l2),
      e.student_id = s.student_id ∧
      e.pings_matched = matchCount s.id (l1 ++ l2) ∧
      e.avg_confidence = roundTo 3 (rawAvg s.id (l1 ++ l2)) ∧
      e.total_pings = (minuteBuckets (l1 ++ q :: l2)).card := by
  have hmem : truncMinute q.timestamp ∈ minuteBuckets (l1 ++ q :: l2) := by
    simp only [minuteBuckets, List.mem_toFinset, List.mem_map]
    exact ⟨q, by simp, rfl⟩
  have hcard : 1 ≤ (minuteBuckets (l1 ++ q :: l2)).card :=
    Finset.card_pos.mpr ⟨_, hmem⟩
  have htot : total_pings_of (l1 ++ q :: l2) = (minuteBuckets (l1 ++ q :: l2)).card := by
    rw [total_pings_of]
    exact Nat.max_eq_left hcard
  have hmc : matchCount s.id (l1 ++ q :: l2) = matchCount s.id (l1 ++ l2) := by
    simp [matchCount, matchedPingsOf, List.filter_append, List.filter_cons, hq]
  have hcs : confSum s.id (l1 ++ q :: l2) = confSum s.id (l1 ++ l2) := by
    simp [confSum, matchedPingsOf, List.filter_append, List.filter_cons, hq]
  have hav : rawAvg s.id (l1 ++ q :: l2) = rawAvg s.id (l1 ++ l2) := by
    rw [rawAvg, rawAvg, hmc, hcs]
  have hne : (l1 ++ q :: l2) ≠ [] := by simp
  refine ⟨hmem, htot, hmc, hcs, entryFor pt (l1 ++ q :: l2) s, ?_, rfl, hmc, ?_, htot⟩
  · rw [calculate_attendance_of_ne_nil pt students _ hne]
    exact List.mem_map_of_mem _ hs
  · show roundTo 3 (rawAvg s.id (l1 ++ q :: l2)) = roundTo 3 (rawAvg s.id (l1 ++ l2))
    rw [hav]

/-- Witness for C10: one matched ping plus one unmatched ping in a fresh
minute bucket — the denominator counts both buckets, the numerator only the
matched ping. -/
theorem c10_unmatched_denominator_witness :
    truncMinute (⟨1, 1, ⟨1, 0, 0⟩, false, 9/10⟩ : Ping).timestamp ∈
      minuteBuckets ([⟨1, 1, ⟨0, 0, 0⟩, true, 9/10⟩] ++
        (⟨1, 1, ⟨1, 0, 0⟩, false, 9/10⟩ : Ping) :: []) ∧
    total_pings_of ([⟨1, 1, ⟨0, 0, 0⟩, true, 9/10⟩] ++
        (⟨1, 1, ⟨1, 0, 0⟩, false, 9/10⟩ : Ping) :: []) =
      (minuteBuckets ([⟨1, 1, ⟨0, 0, 0⟩, true, 9/10⟩] ++
        (⟨1, 1, ⟨1, 0, 0⟩, false, 9/10⟩ : Ping) :: [])).card ∧
    matchCount 1 ([⟨1, 1, ⟨0, 0, 0⟩, true, 9/10⟩] ++
        (⟨1, 1, ⟨1, 0, 0⟩, false, 9/10⟩ : Ping) :: []) =
      matchCount 1 ([⟨1, 1, ⟨0, 0, 0⟩, true, 9/10⟩] ++ []) ∧
    confSum 1 ([⟨1, 1, ⟨0, 0, 0⟩, true, 9/10⟩] ++
        (⟨1, 1, ⟨1, 0, 0⟩, false, 9/10⟩ : Ping) :: []) =
      confSum 1 ([⟨1, 1, ⟨0, 0, 0⟩, true, 9/10⟩] ++ []) ∧
    ∃ e ∈ calculate_attendance (6/10) [⟨1, "A", "Ann"⟩]
        ([⟨1, 1, ⟨0, 0, 0⟩, true, 9/10⟩] ++
          (⟨1, 1, ⟨1, 0, 0⟩, false, 9/10⟩ : Ping) :: []),
      e.student_id = "A" ∧
      e.pings_matched = matchCount 1 ([⟨1, 1, ⟨0, 0, 0⟩, true, 9/10⟩] ++ []) ∧
      e.avg_confidence = roundTo 3 (rawAvg 1 ([⟨1, 1, ⟨0, 0, 0⟩, true, 9/10⟩] ++ [])) ∧
      e.total_pings = (minuteBuckets ([⟨1, 1, ⟨0, 0, 0⟩, true, 9/10⟩] ++
        (⟨1, 1, ⟨1, 0, 0⟩, false, 9/10⟩ : Ping) :: [])).card :=
  c10_unmatched_denominator (6/10) [⟨1, "A", "Ann"⟩] ⟨1, "A", "Ann"⟩
    [⟨1, 1, ⟨0, 0, 0⟩, true, 9/10⟩] [] ⟨1, 1, ⟨1, 0, 0⟩, false, 9/10⟩
    rfl (by decide)
